import Mathlib

/-!
Verification of the mission-control operational state aggregator
(`src/app.py`): path resolution, snapshot loading, log tailing,
lifecycle reconciliation, projections, and limits, embedded shallowly.

Python dictionaries parsed from JSON are modelled by `JVal`; the
filesystem that the external producer writes to is modelled by `Env`,
which maps each physical path to its current observable content.
-/

/-- A parsed JSON value (the result of a successful `json.load` /
`json.loads`).  Numbers are modelled as integers, which suffices for
every value the dashboard inspects. -/
inductive JVal where
  | null
  | bool (b : Bool)
  | num (n : Int)
  | str (s : String)
  | arr (xs : List JVal)
  | obj (fields : List (String × JVal))

/-- Python truthiness of a parsed JSON value (`if status_file:` etc.):
`None`, `False`, `0`, `""`, `[]`, `{}` are falsy, everything else truthy. -/
def pyTruthy : JVal → Bool
  | .null => false
  | .bool b => b
  | .num n => decide (n ≠ 0)
  | .str s => decide (s ≠ "")
  | .arr [] => false
  | .arr (_ :: _) => true
  | .obj [] => false
  | .obj (_ :: _) => true

/-- Outcome of opening an existing path and running `json.load` on it. -/
inductive JsonOutcome where
  | parses (d : JVal)
  | malformed
  | ioError (msg : String)

/-- One physical line of a `.jsonl` file, classified by what
`line.strip()` and `json.loads(line)` do with it. -/
inductive LogLine where
  | blank
  | malformed (s : String)
  | record (v : JVal)

/-- Holds exactly on lines that parse to a record. -/
def LogLine.isRecord : LogLine → Bool
  | .record _ => true
  | _ => false

/-- The parsed value of a record line, `none` on blank/malformed lines. -/
def LogLine.recordVal : LogLine → Option JVal
  | .record v => some v
  | _ => none

/-- A Python exception that may escape a function body. -/
inductive PyExn where
  | jsonDecodeError
  | osError (msg : String)
  | attributeError
deriving DecidableEq

/-- The observable filesystem at one instant: the `WORKSPACE_PATH`
environment variable, which paths exist, and what reading each path
yields (as a whole JSON document, and as JSONL lines). -/
structure Env where
  workspacePath : String
  pathExists : String → Bool
  jsonContent : String → JsonOutcome
  jsonlRead : String → Except String (List LogLine)

/-- The candidate path under `WORKSPACE_PATH/memory/dashboard`. -/
def workspaceFile (env : Env) (filename : String) : String :=
  env.workspacePath ++ "/memory/dashboard/" ++ filename

/-- The candidate path under the local `data` directory next to the app. -/
def localFile (filename : String) : String :=
  "data/" ++ filename

/-- Embeds `get_data_path`: try the workspace root first (only when
`WORKSPACE_PATH` is non-empty), then the local fallback, returning the
first path that currently exists, else `none`. -/
def get_data_path (env : Env) (filename : String) : Option String :=
  if env.workspacePath ≠ "" ∧ env.pathExists (workspaceFile env filename) then
    some (workspaceFile env filename)
  else if env.pathExists (localFile filename) then
    some (localFile filename)
  else
    none

/-- The `str(e)` substring test used by the loaders to keep "file not
found"-style OS errors silent. -/
def silentMsg (m : String) : Bool :=
  decide ("ENOENT".toList <:+: m.toList) || decide ("No such file".toList <:+: m.toList)

/-- The `try` body of `load_json_file`: resolve the path, re-check
existence, read and parse; parse failures raise `JSONDecodeError` and
OS failures raise `OSError`. -/
def load_json_file_core (env : Env) (filename : String) :
    Except PyExn (Option JVal) :=
  match get_data_path env filename with
  | none => .ok none
  | some p =>
    if env.pathExists p then
      match env.jsonContent p with
      | .parses d => .ok (some d)
      | .malformed => .error .jsonDecodeError
      | .ioError m => .error (.osError m)
    else
      .ok none

/-- What `load_json_file` hands back to its caller: the optional parsed
document, and the list of error banners shown via `st.error`. -/
structure LoadResult where
  doc : Option JVal
  errorsShown : List String

/-- Embeds `load_json_file`: the `try` body with its two `except` clauses.
`JSONDecodeError` is swallowed silently; any other exception shows an
error banner unless its message looks like "file not found"; every
failure path returns `None`. -/
def load_json_file (env : Env) (filename : String) : LoadResult :=
  match load_json_file_core env filename with
  | .ok v => ⟨v, []⟩
  | .error .jsonDecodeError => ⟨none, []⟩
  | .error .attributeError => ⟨none, ["Error loading " ++ filename ++ ": AttributeError"]⟩
  | .error (.osError m) =>
    if silentMsg m then ⟨none, []⟩
    else ⟨none, ["Error loading " ++ filename ++ ": " ++ m]⟩

/-- The Python slice `lines[-limit:]`.  Note the Python quirk: with
`limit = 0` the slice `[-0:]` is the whole list. -/
def pyLastSlice (lines : List α) (limit : Nat) : List α :=
  if limit = 0 then lines else lines.drop (lines.length - limit)

/-- The per-line loop of `load_jsonl_file`: skip lines whose `strip()`
is falsy, append each `json.loads` success, skip `JSONDecodeError`s. -/
def recordsOf : List LogLine → List JVal
  | [] => []
  | .blank :: rest => recordsOf rest
  | .malformed _ :: rest => recordsOf rest
  | .record v :: rest => v :: recordsOf rest

/-- Embeds `load_jsonl_file`: resolve the path, read all lines, keep
`lines[-limit:]` when the file has more than `limit` lines, then parse
the retained lines, skipping blank and malformed ones.  Returns the
records together with the error banners shown via `st.error`. -/
def load_jsonl_file (env : Env) (filename : String) (limit : Nat) :
    List JVal × List String :=
  match get_data_path env filename with
  | none => ([], [])
  | some p =>
    if env.pathExists p then
      match env.jsonlRead p with
      | .ok lines =>
        let recent := if limit < lines.length then pyLastSlice lines limit else lines
        (recordsOf recent, [])
      | .error m =>
        ([], if silentMsg m then [] else ["Error loading " ++ filename ++ ": " ++ m])
    else
      ([], [])

/-- The documented default agent status synthesized when `status.json`
is missing or empty: online, zero counts, `now` as last activity. -/
def defaultStatus (now : String) : JVal :=
  .obj [("online", .bool true),
        ("last_activity", .str now),
        ("active_sessions", .num 0),
        ("running_subagents", .num 0)]

/-- Embeds `get_agent_status`: the loaded `status.json` document when it is
truthy, else the synthesized default. -/
def get_agent_status (env : Env) (now : String) : JVal :=
  match (load_json_file env "status.json").doc with
  | some d => if pyTruthy d then d else defaultStatus now
  | none => defaultStatus now

/-- Python `d.get(key, default)`: assoc lookup on a dict, but an
`AttributeError` on any non-dict value. -/
def pyGet (d : JVal) (key : String) (default : JVal) : Except PyExn JVal :=
  match d with
  | .obj fields => .ok ((fields.lookup key).getD default)
  | _ => .error .attributeError

/-- Embeds `get_sessions`: the `"sessions"` entry of `sessions.json`, `[]`
when the file is missing/falsy; `.get` may raise on a non-dict document. -/
def get_sessions (env : Env) : Except PyExn JVal :=
  match (load_json_file env "sessions.json").doc with
  | some d => if pyTruthy d then pyGet d "sessions" (.arr []) else .ok (.arr [])
  | none => .ok (.arr [])

/-- Embeds `get_session_history`: the `"messages"` entry of the per-session
history file, `[]` when missing/falsy. -/
def get_session_history (env : Env) (session_key : String) : Except PyExn JVal :=
  match (load_json_file env ("history_" ++ session_key ++ ".json")).doc with
  | some d => if pyTruthy d then pyGet d "messages" (.arr []) else .ok (.arr [])
  | none => .ok (.arr [])

/-- Embeds `get_cron_jobs`: the `"jobs"` entry of `cron-jobs.json`, `[]` when
missing/falsy. -/
def get_cron_jobs (env : Env) : Except PyExn JVal :=
  match (load_json_file env "cron-jobs.json").doc with
  | some d => if pyTruthy d then pyGet d "jobs" (.arr []) else .ok (.arr [])
  | none => .ok (.arr [])

/-- Embeds `get_deliverables`: the `"items"` entry of `deliverables.json`,
`[]` when missing/falsy. -/
def get_deliverables (env : Env) : Except PyExn JVal :=
  match (load_json_file env "deliverables.json").doc with
  | some d => if pyTruthy d then pyGet d "items" (.arr []) else .ok (.arr [])
  | none => .ok (.arr [])

/-- Embeds `get_subagent_tasks`: the sub-agent task log tailed at 50. -/
def get_subagent_tasks (env : Env) : List JVal × List String :=
  load_jsonl_file env "subagent-log.jsonl" 50

/-- Embeds `get_activity_feed`: the activity event feed tailed at 100. -/
def get_activity_feed (env : Env) : List JVal × List String :=
  load_jsonl_file env "activity-feed.jsonl" 100

/-- A sub-agent task event as `page_subagents` reads it: `t.get("event")`
and `t.get("session_key")` on a parsed dict, each `None` when absent. -/
structure TaskEvent where
  event : Option String
  session_key : Option String
deriving DecidableEq

/-- Embeds `spawned_keys`: the session keys of the events whose `event` field
is `"spawned"` (a Python set; modelled as a list used up to membership). -/
def spawned_keys (tasks : List TaskEvent) : List (Option String) :=
  (tasks.filter fun t => t.event == some "spawned").map (·.session_key)

/-- Embeds `completed_keys`: the session keys of the events whose `event`
field is `"completed"`. -/
def completed_keys (tasks : List TaskEvent) : List (Option String) :=
  (tasks.filter fun t => t.event == some "completed").map (·.session_key)

/-- Embeds `running_keys = spawned_keys - completed_keys` (set difference). -/
def running_keys (tasks : List TaskEvent) : List (Option String) :=
  (spawned_keys tasks).filter fun k => decide (k ∉ completed_keys tasks)

/-- Embeds `running`: the spawned events whose key is in `running_keys`. -/
def running (tasks : List TaskEvent) : List TaskEvent :=
  tasks.filter fun t =>
    t.event == some "spawned" && decide (t.session_key ∈ running_keys tasks)

/-- Embeds `completed`: the events whose `event` field is `"completed"`,
in input order. -/
def completed (tasks : List TaskEvent) : List TaskEvent :=
  tasks.filter fun t => t.event == some "completed"

/-- An activity event as `page_activity` reads it: `e.get("type")`,
plus its summary text (used only to tell events apart). -/
structure ActivityEvent where
  type : Option String
  summary : String
deriving DecidableEq

/-- The `type_map` dict of `page_activity`, read with `.get(option, [])`. -/
def type_map (option : String) : List String :=
  (([("Sessions", ["session_started", "session_ended"]),
     ("Tasks", ["task_started", "task_completed", "task_failed"]),
     ("Deliverables", ["deliverable_created"]),
     ("Errors", ["error_occurred", "task_failed"])] :
     List (String × List String)).lookup option).getD []

/-- Python `e.get("type") in allowed_types`: `None` is in no list of
strings. -/
def typeMem (t : Option String) (allowed : List String) : Bool :=
  match t with
  | none => false
  | some s => decide (s ∈ allowed)

/-- The category filter of `page_activity`: everything for `"All"`,
else the events whose type is in the mapped allowed-type list. -/
def page_activity_filter (option : String) (activity : List ActivityEvent) :
    List ActivityEvent :=
  if option = "All" then activity
  else activity.filter fun e => typeMem e.type (type_map option)

/-- The message-body truncation of `render_message`:
`content[:2000] + "..."` when the content exceeds 2000 characters.
Python strings are modelled as their character lists. -/
def display_content (content : List Char) : List Char :=
  if 2000 < content.length then content.take 2000 ++ "...".toList else content

/-- The tail window exactly as the spec words it: the last `limit`
non-blank lines of the file, blank lines not counting toward the
window.  Used to compare the wording of the spec with the code. -/
def specTailWindow (lines : List LogLine) (limit : Nat) : List LogLine :=
  let nb := lines.filter fun l => !(l matches .blank)
  if limit < nb.length then nb.drop (nb.length - limit) else nb

/-- The tail as the spec words it: parse the last `limit` non-blank
lines, dropping malformed ones. -/
def specTail (lines : List LogLine) (limit : Nat) : List JVal :=
  recordsOf (specTailWindow lines limit)

/-- Modelled from the spec: the memoization in the code is the external
`st.cache_data(ttl=10)` decorator (and `st.cache_data.clear()`), whose
implementation is not part of this repository; this cache state follows
§4.4 (StaleBoundedCache).  Entries map a key to a value and the time it
was retrieved. -/
structure CacheState (α : Type) where
  entries : List (String × α × Nat)

/-- The stored (value, retrievedAt) pair for a key, if any. -/
def lookupEntry (c : CacheState α) (k : String) : Option (α × Nat) :=
  (c.entries.find? fun e => e.1 == k).map (·.2)

/-- Store (or replace) the entry for a key. -/
def insertEntry (c : CacheState α) (k : String) (v : α) (t : Nat) : CacheState α :=
  ⟨(k, v, t) :: c.entries.filter fun e => !(e.1 == k)⟩

/-- Modelled from the spec: `get` of §4.4.  A stored entry younger than
`ttl` is served with no disk read; otherwise the loader runs once and
its result replaces the entry.  The third component counts the
underlying reads this call performed (0 or 1). -/
def cache_get (loader : String → α) (ttl : Nat) (c : CacheState α)
    (k : String) (now : Nat) : α × CacheState α × Nat :=
  match lookupEntry c k with
  | some (v, t) =>
    if now < t + ttl then (v, c, 0)
    else (loader k, insertEntry c k (loader k) now, 1)
  | none => (loader k, insertEntry c k (loader k) now, 1)

/-- Modelled from the spec: the invalidate-all operation
(`st.cache_data.clear()` behind the manual refresh button) clears every
entry immediately. -/
def invalidate_all (_c : CacheState α) : CacheState α := ⟨[]⟩

/-- Assoc lookup on a JSON object, `none` on any other value; used to
state field-level facts about loaded documents. -/
def objLookup : JVal → String → Option JVal
  | .obj fields, k => fields.lookup k
  | _, _ => none

/-- A filesystem with no data files at all. -/
def envAbsent : Env :=
  ⟨"", fun _ => false, fun _ => .malformed, fun _ => .error "boom"⟩

/-- A filesystem whose `status.json` is present and parses to `{}`. -/
def envFalsyStatus : Env :=
  ⟨"", fun p => p == localFile "status.json",
   fun _ => .parses (.obj []), fun _ => .error "boom"⟩

/-- A filesystem whose `sessions.json` is present and parses to the
JSON number `1` (well-formed JSON, but not an object). -/
def envBadSessions : Env :=
  ⟨"", fun p => p == localFile "sessions.json",
   fun _ => .parses (.num 1), fun _ => .error "boom"⟩

/-- A filesystem where every snapshot file parses to an object having
only an unrelated key. -/
def envObjNoKeys : Env :=
  ⟨"", fun _ => true, fun _ => .parses (.obj [("x", .num 1)]),
   fun _ => .error "boom"⟩

/-- A log whose last physical line is blank and whose previous line is
a well-formed record. -/
def envBlankTail : Env :=
  ⟨"", fun p => p == localFile "log.jsonl", fun _ => .malformed,
   fun _ => .ok [.record (.obj [("a", .num 1)]), .blank]⟩

/-- A log with one well-formed record followed by a malformed line. -/
def envMalformedTail : Env :=
  ⟨"", fun p => p == localFile "log.jsonl", fun _ => .malformed,
   fun _ => .ok [.record (.str "a"), .malformed "oops"]⟩

/-- A mixed four-line log used as a concrete tail input. -/
def envMixedLog : Env :=
  ⟨"", fun p => p == localFile "log.jsonl", fun _ => .malformed,
   fun _ => .ok [.record .null, .malformed "x", .record (.num 2), .blank]⟩

/-- A three-line log shorter than the tail window. -/
def envShortLog : Env :=
  ⟨"", fun p => p == localFile "log.jsonl", fun _ => .malformed,
   fun _ => .ok [.record (.num 1), .blank, .record (.num 2)]⟩

/-- A path returned by `get_data_path` exists. -/
theorem get_data_path_exists (env : Env) (filename : String) (p : String)
    (h : get_data_path env filename = some p) : env.pathExists p = true := by
  unfold get_data_path at h
  split at h
  · rename_i hc
    cases h
    exact hc.2
  · split at h
    · rename_i hc
      cases h
      exact hc
    · cases h

/-- When neither root resolves the filename, `load_json_file` returns
`None` and shows no error. -/
theorem load_json_file_absent (env : Env) (filename : String)
    (h : get_data_path env filename = none) :
    load_json_file env filename = ⟨none, []⟩ := by
  simp [load_json_file, load_json_file_core, h]

/-- The retained slice of `load_jsonl_file` equals dropping all but the
last `min limit length` physical lines, for any positive limit. -/
theorem recent_eq_window (lines : List LogLine) (limit : Nat) (h : 1 ≤ limit) :
    (if limit < lines.length then pyLastSlice lines limit else lines)
      = lines.drop (lines.length - min limit lines.length) := by
  split
  · rename_i hlt
    rw [pyLastSlice, if_neg (by omega), Nat.min_eq_left (Nat.le_of_lt hlt)]
  · rename_i hge
    rw [Nat.min_eq_right (by omega), Nat.sub_self, List.drop_zero]

/-- The parse loop keeps exactly the values of record lines, in order. -/
theorem recordsOf_eq_filterMap (l : List LogLine) :
    recordsOf l = l.filterMap LogLine.recordVal := by
  induction l with
  | nil => rfl
  | cons hd tl ih => cases hd <;> simp [recordsOf, LogLine.recordVal, ih]

/-- The parse loop yields one record per record line. -/
theorem recordsOf_length (l : List LogLine) :
    (recordsOf l).length = l.countP LogLine.isRecord := by
  induction l with
  | nil => rfl
  | cons hd tl ih =>
    cases hd <;> simp [recordsOf, LogLine.isRecord, List.countP_cons, ih]

/-- C1 counterexample: with `limit = 1` and a log whose last physical
line is blank, the code windows over physical lines and returns no
record, while the "last 1 non-blank line" window of the claim would retain
the record.  Blank lines do count toward the window. -/
theorem load_jsonl_tail_spec_counterexample :
    (load_jsonl_file envBlankTail "log.jsonl" 1).1 = []
    ∧ specTail [.record (.obj [("a", .num 1)]), .blank] 1 = [.obj [("a", .num 1)]]
    ∧ ¬ (load_jsonl_file envBlankTail "log.jsonl" 1).1
        = specTail [.record (.obj [("a", .num 1)]), .blank] 1 := by
  refine ⟨rfl, rfl, ?_⟩
  intro h
  rw [show (load_jsonl_file envBlankTail "log.jsonl" 1).1 = [] from rfl,
      show specTail [.record (.obj [("a", .num 1)]), .blank] 1 = [.obj [("a", .num 1)]]
        from rfl] at h
  exact List.cons_ne_nil _ _ h.symm

/-- C1 (amended): for every log file and every limit ≥ 1, the tail
retains exactly the well-formed records among the last `limit`
*physical* lines (blank and malformed lines count toward the window),
in file order; a malformed line in the window is absent from the result
while every well-formed line in the window is counted, and no error is
shown. -/
theorem load_jsonl_tail_window_characterization (env : Env) (filename p : String)
    (limit : Nat) (lines : List LogLine)
    (hlim : 1 ≤ limit) (hp : get_data_path env filename = some p)
    (hr : env.jsonlRead p = .ok lines) :
    (load_jsonl_file env filename limit).1
      = (lines.drop (lines.length - min limit lines.length)).filterMap LogLine.recordVal
    ∧ (load_jsonl_file env filename limit).1.length
      = (lines.drop (lines.length - min limit lines.length)).countP LogLine.isRecord
    ∧ (load_jsonl_file env filename limit).2 = [] := by
  have hex := get_data_path_exists env filename p hp
  have hload : load_jsonl_file env filename limit
      = (recordsOf (if limit < lines.length then pyLastSlice lines limit else lines), []) := by
    simp [load_jsonl_file, hp, hex, hr]
  rw [hload, recent_eq_window lines limit hlim]
  exact ⟨recordsOf_eq_filterMap _, recordsOf_length _, rfl⟩

/-- C1 witness: the characterization evaluated on a concrete four-line
log with window 2. -/
theorem load_jsonl_tail_window_characterization_witness :
    (load_jsonl_file envMixedLog "log.jsonl" 2).1
      = ([LogLine.record .null, .malformed "x", .record (.num 2), .blank].drop
          ([LogLine.record .null, .malformed "x", .record (.num 2), .blank].length -
            min 2 [LogLine.record .null, .malformed "x",
              .record (.num 2), .blank].length)).filterMap LogLine.recordVal :=
  (load_jsonl_tail_window_characterization envMixedLog "log.jsonl" (localFile "log.jsonl") 2
    [.record .null, .malformed "x", .record (.num 2), .blank] (by decide) rfl rfl).1

/-- C3 counterexample: a file with one well-formed line (M = 1 ≤ N = 1)
whose other line is malformed; the malformed line fills the physical
window and the tail returns 0 records, not M. -/
theorem load_jsonl_wellformed_count_counterexample :
    [LogLine.record (.str "a"), .malformed "oops"].countP LogLine.isRecord = 1
    ∧ (load_jsonl_file envMalformedTail "log.jsonl" 1).1 = []
    ∧ (load_jsonl_file envMalformedTail "log.jsonl" 1).1.length ≠
        [LogLine.record (.str "a"), .malformed "oops"].countP LogLine.isRecord :=
  ⟨by decide, rfl, by decide⟩

/-- C3 (amended): for every limit N ≥ 1 and every log file with at most
N *total* lines, of which M are well-formed, the tail returns exactly
those M records in file order (oldest first). -/
theorem load_jsonl_small_file_returns_all_records (env : Env) (filename p : String)
    (limit : Nat) (lines : List LogLine)
    (_hlim : 1 ≤ limit)
    (hp : get_data_path env filename = some p)
    (hr : env.jsonlRead p = .ok lines)
    (hsmall : lines.length ≤ limit) :
    (load_jsonl_file env filename limit).1 = lines.filterMap LogLine.recordVal
    ∧ (load_jsonl_file env filename limit).1.length = lines.countP LogLine.isRecord := by
  have hex := get_data_path_exists env filename p hp
  have hnlt : ¬ limit < lines.length := Nat.not_lt.2 hsmall
  have hload : load_jsonl_file env filename limit = (recordsOf lines, []) := by
    simp [load_jsonl_file, hp, hex, hr, hnlt]
  rw [hload]
  exact ⟨recordsOf_eq_filterMap lines, recordsOf_length lines⟩

/-- C3 witness: a three-line log under the 50-record window returns its
two records in order. -/
theorem load_jsonl_small_file_returns_all_records_witness :
    (load_jsonl_file envShortLog "log.jsonl" 50).1
      = [LogLine.record (.num 1), .blank, .record (.num 2)].filterMap LogLine.recordVal :=
  (load_jsonl_small_file_returns_all_records envShortLog "log.jsonl" (localFile "log.jsonl")
    50 [.record (.num 1), .blank, .record (.num 2)] (by decide) rfl rfl (by decide)).1

/-- C4: the snapshot loader returns `None` silently when the file is
absent or its content fails to parse; every exception raised inside the
body is absorbed (the caller sees `None`, never an exception); and a
document is only ever returned when it parsed successfully. -/
theorem load_json_file_absorbs_failures (env : Env) (filename : String) :
    (get_data_path env filename = none → load_json_file env filename = ⟨none, []⟩)
    ∧ (∀ p, get_data_path env filename = some p → env.jsonContent p = .malformed →
        load_json_file env filename = ⟨none, []⟩)
    ∧ (∀ e, load_json_file_core env filename = .error e →
        (load_json_file env filename).doc = none)
    ∧ ((load_json_file env filename).doc = none ∨
       ∃ p d, get_data_path env filename = some p ∧ env.jsonContent p = .parses d ∧
         (load_json_file env filename).doc = some d) := by
  refine ⟨fun h => load_json_file_absent env filename h, ?_, ?_, ?_⟩
  · intro p hp hm
    have hex := get_data_path_exists env filename p hp
    simp [load_json_file, load_json_file_core, hp, hex, hm]
  · intro e he
    cases e <;> simp [load_json_file, he, apply_ite]
  · rcases hp : get_data_path env filename with _ | p
    · left
      simp [load_json_file, load_json_file_core, hp]
    · have hex := get_data_path_exists env filename p hp
      rcases hj : env.jsonContent p with d | _ | m
      · right
        exact ⟨p, d, rfl, hj, by simp [load_json_file, load_json_file_core, hp, hex, hj]⟩
      · left
        simp [load_json_file, load_json_file_core, hp, hex, hj]
      · left
        simp [load_json_file, load_json_file_core, hp, hex, hj, apply_ite]

/-- C4 witness: on an empty filesystem the loader yields `None` with no
error banner. -/
theorem load_json_file_absorbs_failures_witness :
    load_json_file envAbsent "status.json" = ⟨none, []⟩ :=
  (load_json_file_absorbs_failures envAbsent "status.json").1 (by decide)

/-- C5: with `status.json` absent, the agent-status accessor returns
the synthesized default: online, zero active sessions, zero running
sub-agents, and the current time as last activity. -/
theorem get_agent_status_default_on_missing (env : Env) (now : String)
    (h : get_data_path env "status.json" = none) :
    get_agent_status env now = defaultStatus now
    ∧ objLookup (get_agent_status env now) "online" = some (.bool true)
    ∧ objLookup (get_agent_status env now) "active_sessions" = some (.num 0)
    ∧ objLookup (get_agent_status env now) "running_subagents" = some (.num 0)
    ∧ objLookup (get_agent_status env now) "last_activity" = some (.str now) := by
  have hl := load_json_file_absent env "status.json" h
  have hg : get_agent_status env now = defaultStatus now := by
    unfold get_agent_status
    rw [hl]
  rw [hg]
  exact ⟨rfl, rfl, rfl, rfl, rfl⟩

/-- C5 witness: the default on an empty filesystem. -/
theorem get_agent_status_default_on_missing_witness :
    get_agent_status envAbsent "12:00Z" = defaultStatus "12:00Z" :=
  (get_agent_status_default_on_missing envAbsent "12:00Z" (by decide)).1

/-- C10: the agent-status accessor synthesizes the default for *every*
falsy loaded document — e.g. a file parsing to `{}` — so a
present-but-empty status file is indistinguishable from a missing one. -/
theorem get_agent_status_default_on_falsy_doc (env : Env) (now : String) (d : JVal)
    (h : (load_json_file env "status.json").doc = some d)
    (hf : pyTruthy d = false) :
    get_agent_status env now = defaultStatus now
    ∧ (∀ env2 : Env, get_data_path env2 "status.json" = none →
        get_agent_status env now = get_agent_status env2 now) := by
  have hg : get_agent_status env now = defaultStatus now := by
    unfold get_agent_status
    rw [h]
    simp [hf]
  refine ⟨hg, fun env2 h2 => ?_⟩
  have hl2 := load_json_file_absent env2 "status.json" h2
  rw [hg]
  unfold get_agent_status
  rw [hl2]

/-- C10 witness: a present `status.json` parsing to `{}` yields the
default. -/
theorem get_agent_status_default_on_falsy_doc_witness :
    get_agent_status envFalsyStatus "12:00Z" = defaultStatus "12:00Z" :=
  (get_agent_status_default_on_falsy_doc envFalsyStatus "12:00Z" (.obj []) rfl rfl).1

/-- C9 counterexample: `sessions.json` parsing to the JSON number `1`
parses successfully and lacks the `"sessions"` key, yet `get_sessions`
raises `AttributeError` instead of returning `[]`. -/
theorem get_sessions_nonobject_raises :
    (load_json_file envBadSessions "sessions.json").doc = some (.num 1)
    ∧ get_sessions envBadSessions = .error .attributeError :=
  ⟨rfl, rfl⟩

/-- C9 (amended): for every snapshot document that parses to a JSON
*object* lacking its expected top-level key, the corresponding accessor
returns an empty list without raising. -/
theorem accessors_empty_on_missing_key (env : Env) (session_key : String) :
    (∀ fields, (load_json_file env "sessions.json").doc = some (.obj fields) →
      fields.lookup "sessions" = none → get_sessions env = .ok (.arr []))
    ∧ (∀ fields,
        (load_json_file env ("history_" ++ session_key ++ ".json")).doc
          = some (.obj fields) →
        fields.lookup "messages" = none →
        get_session_history env session_key = .ok (.arr []))
    ∧ (∀ fields, (load_json_file env "cron-jobs.json").doc = some (.obj fields) →
      fields.lookup "jobs" = none → get_cron_jobs env = .ok (.arr []))
    ∧ (∀ fields, (load_json_file env "deliverables.json").doc = some (.obj fields) →
      fields.lookup "items" = none → get_deliverables env = .ok (.arr [])) := by
  refine ⟨?_, ?_, ?_, ?_⟩
  · intro fields h hl
    unfold get_sessions
    rw [h]
    cases fields with
    | nil => rfl
    | cons f fs => simp [pyTruthy, pyGet, hl]
  · intro fields h hl
    unfold get_session_history
    rw [h]
    cases fields with
    | nil => rfl
    | cons f fs => simp [pyTruthy, pyGet, hl]
  · intro fields h hl
    unfold get_cron_jobs
    rw [h]
    cases fields with
    | nil => rfl
    | cons f fs => simp [pyTruthy, pyGet, hl]
  · intro fields h hl
    unfold get_deliverables
    rw [h]
    cases fields with
    | nil => rfl
    | cons f fs => simp [pyTruthy, pyGet, hl]

/-- C9 witness: an object document with only an unrelated key makes
`get_sessions` return `[]`. -/
theorem accessors_empty_on_missing_key_witness :
    get_sessions envObjNoKeys = .ok (.arr []) :=
  (accessors_empty_on_missing_key envObjNoKeys "s").1 [("x", .num 1)] rfl rfl

/-- Membership in the spawned-key set. -/
theorem mem_spawned_keys (tasks : List TaskEvent) (k : Option String) :
    k ∈ spawned_keys tasks ↔
      ∃ t, t ∈ tasks ∧ t.event = some "spawned" ∧ t.session_key = k := by
  simp [spawned_keys, List.mem_map, List.mem_filter, beq_iff_eq]
  tauto

/-- Membership in the completed-key set. -/
theorem mem_completed_keys (tasks : List TaskEvent) (k : Option String) :
    k ∈ completed_keys tasks ↔
      ∃ t, t ∈ tasks ∧ t.event = some "completed" ∧ t.session_key = k := by
  simp [completed_keys, List.mem_map, List.mem_filter, beq_iff_eq]
  tauto

/-- Membership in `running_keys` is the set difference. -/
theorem mem_running_keys (tasks : List TaskEvent) (k : Option String) :
    k ∈ running_keys tasks ↔
      k ∈ spawned_keys tasks ∧ k ∉ completed_keys tasks := by
  simp [running_keys, List.mem_filter]

/-- C2: reconciliation in `page_subagents`.  A key is running iff some
event spawned it and no event completed it; the completed view is
exactly the completed events in input order; a completed-only key is
never running; and the documented concrete instances hold, including a
completed event with no matching spawn. -/
theorem page_subagents_reconcile_correct (tasks : List TaskEvent) :
    (∀ k, k ∈ running_keys tasks ↔
      ((∃ t, t ∈ tasks ∧ t.event = some "spawned" ∧ t.session_key = k) ∧
       ¬ ∃ t, t ∈ tasks ∧ t.event = some "completed" ∧ t.session_key = k))
    ∧ (completed tasks).Sublist tasks
    ∧ (∀ t, t ∈ completed tasks ↔ t ∈ tasks ∧ t.event = some "completed")
    ∧ (∀ k, k ∈ completed_keys tasks → k ∉ running_keys tasks)
    ∧ (∀ t, t ∈ running tasks →
        t.event = some "spawned" ∧ t.session_key ∉ completed_keys tasks)
    ∧ running [⟨some "spawned", some "A"⟩, ⟨some "spawned", some "B"⟩,
        ⟨some "completed", some "A"⟩] = [⟨some "spawned", some "B"⟩]
    ∧ completed [⟨some "spawned", some "A"⟩, ⟨some "spawned", some "B"⟩,
        ⟨some "completed", some "A"⟩] = [⟨some "completed", some "A"⟩]
    ∧ running_keys [⟨some "spawned", some "A"⟩, ⟨some "spawned", some "B"⟩,
        ⟨some "completed", some "A"⟩] = [some "B"]
    ∧ completed [(⟨some "completed", some "Z"⟩ : TaskEvent)]
        = [⟨some "completed", some "Z"⟩]
    ∧ running [(⟨some "completed", some "Z"⟩ : TaskEvent)] = [] := by
  refine ⟨?_, List.filter_sublist _, ?_, ?_, ?_,
    by decide, by decide, by decide, by decide, by decide⟩
  · intro k
    rw [mem_running_keys, mem_spawned_keys]
    rw [show (k ∉ completed_keys tasks) = ¬ (k ∈ completed_keys tasks) from rfl,
        mem_completed_keys]
  · intro t
    simp [completed, List.mem_filter, beq_iff_eq]
  · intro k hk hmem
    exact ((mem_running_keys tasks k).1 hmem).2 hk
  · intro t ht
    simp only [running, List.mem_filter, Bool.and_eq_true, beq_iff_eq,
      decide_eq_true_eq] at ht
    exact ⟨ht.2.1, ((mem_running_keys tasks t.session_key).1 ht.2.2).2⟩

/-- C2 witness: a completed-only key is not running. -/
theorem page_subagents_reconcile_witness :
    some "Z" ∉ running_keys [(⟨some "completed", some "Z"⟩ : TaskEvent)] :=
  (page_subagents_reconcile_correct [⟨some "completed", some "Z"⟩]).2.2.2.1
    (some "Z") (by decide)

/-- Predicate `typeMem` holds exactly when the type is in the allowed set. -/
theorem typeMem_iff (t : Option String) (allowed : List String) :
    typeMem t allowed = true ↔ ∃ s, t = some s ∧ s ∈ allowed := by
  cases t <;> simp [typeMem]

/-- C6: the category filter of the activity page keeps exactly the
events whose type is in the documented category-to-type mapping, with
the four mapped sets as documented; filtering `"Errors"` on a feed of
`task_failed` and `deliverable_created` events keeps only the
`task_failed` entries, in order. -/
theorem page_activity_category_filter_correct :
    (∀ opt events (e : ActivityEvent), opt ≠ "All" →
      (e ∈ page_activity_filter opt events ↔
        e ∈ events ∧ ∃ s, e.type = some s ∧ s ∈ type_map opt))
    ∧ type_map "Sessions" = ["session_started", "session_ended"]
    ∧ type_map "Tasks" = ["task_started", "task_completed", "task_failed"]
    ∧ type_map "Deliverables" = ["deliverable_created"]
    ∧ type_map "Errors" = ["error_occurred", "task_failed"]
    ∧ (∀ opt events, (page_activity_filter opt events).Sublist events)
    ∧ page_activity_filter "Errors"
        [⟨some "task_failed", "f1"⟩, ⟨some "deliverable_created", "d1"⟩,
         ⟨some "task_failed", "f2"⟩]
        = [⟨some "task_failed", "f1"⟩, ⟨some "task_failed", "f2"⟩] := by
  refine ⟨?_, by decide, by decide, by decide, by decide, ?_, by decide⟩
  · intro opt events e hopt
    rw [page_activity_filter, if_neg hopt]
    simp [List.mem_filter, typeMem_iff]
  · intro opt events
    rw [page_activity_filter]
    split
    · exact List.Sublist.refl _
    · exact List.filter_sublist _

/-- C6 witness: a `task_failed` event passes the `"Errors"` filter. -/
theorem page_activity_category_filter_witness :
    (⟨some "task_failed", "f1"⟩ : ActivityEvent) ∈ page_activity_filter "Errors"
      [⟨some "task_failed", "f1"⟩, ⟨some "deliverable_created", "d1"⟩] :=
  (page_activity_category_filter_correct.1 "Errors" _ _ (by decide)).mpr
    ⟨by decide, "task_failed", rfl, by decide⟩

/-- C8: the tail windows are the constants 50 (sub-agent task log) and
100 (activity feed) on every call, and message content longer than 2000
characters is displayed as its first 2000 characters plus an ellipsis,
while shorter content is displayed unchanged. -/
theorem fixed_limits_and_truncation :
    (∀ env, get_subagent_tasks env = load_jsonl_file env "subagent-log.jsonl" 50)
    ∧ (∀ env, get_activity_feed env = load_jsonl_file env "activity-feed.jsonl" 100)
    ∧ (∀ content : List Char, 2000 < content.length →
        display_content content = content.take 2000 ++ "...".toList
        ∧ (content.take 2000).length = 2000
        ∧ (display_content content).take 2000 = content.take 2000)
    ∧ (∀ content : List Char, content.length ≤ 2000 →
        display_content content = content) := by
  refine ⟨fun env => rfl, fun env => rfl, ?_, ?_⟩
  · intro c h
    have ht : (c.take 2000).length = 2000 := by
      rw [List.length_take]
      omega
    refine ⟨by simp [display_content, h], ht, ?_⟩
    rw [show display_content c = c.take 2000 ++ "...".toList from by
      simp [display_content, h]]
    rw [List.take_append_of_le_length (by omega), List.take_take]
    simp
  · intro c h
    simp [display_content, Nat.not_lt.2 h]

/-- C8 witness: a 2001-character message is cut at 2000 characters. -/
theorem fixed_limits_and_truncation_witness :
    display_content (List.replicate 2001 'a')
        = (List.replicate 2001 'a').take 2000 ++ "...".toList
    ∧ ((List.replicate 2001 'a').take 2000).length = 2000 := by
  have H := fixed_limits_and_truncation.2.2.1 (List.replicate 2001 'a')
    (by rw [List.length_replicate]; omega)
  exact ⟨H.1, H.2.1⟩

/-- Inserting an entry makes it the one `lookupEntry` finds. -/
theorem lookupEntry_insert (c : CacheState α) (k : String) (v : α) (t : Nat) :
    lookupEntry (insertEntry c k v t) k = some (v, t) := by
  unfold lookupEntry insertEntry
  rw [List.find?_cons_of_pos _ (by simp)]
  rfl

/-- C7: cache semantics (modelled from §4.4).  A first `get` for an
uncached key performs one read; a second `get` within the TTL returns
the same stored value with no read and no state change; a `get` after
the TTL performs one more read and replaces the stored entry with the
fresh value and time; and after invalidate-all every key is uncached,
so the next `get` for any key reads again. -/
theorem cache_get_ttl_semantics {α : Type} (loader : String → α) (ttl : Nat)
    (c : CacheState α) (k : String) (t0 t1 t2 : Nat)
    (h0 : lookupEntry c k = none) (h1 : t1 < t0 + ttl) (h2 : t0 + ttl ≤ t2) :
    (cache_get loader ttl c k t0).2.2 = 1
    ∧ (cache_get loader ttl c k t0).1 = loader k
    ∧ (cache_get loader ttl (cache_get loader ttl c k t0).2.1 k t1).1 = loader k
    ∧ (cache_get loader ttl (cache_get loader ttl c k t0).2.1 k t1).2.2 = 0
    ∧ (cache_get loader ttl (cache_get loader ttl c k t0).2.1 k t1).2.1
        = (cache_get loader ttl c k t0).2.1
    ∧ (cache_get loader ttl (cache_get loader ttl c k t0).2.1 k t2).2.2 = 1
    ∧ lookupEntry
        (cache_get loader ttl (cache_get loader ttl c k t0).2.1 k t2).2.1 k
        = some (loader k, t2)
    ∧ (∀ c2 : CacheState α, ∀ k2,
        lookupEntry (invalidate_all c2) k2 = (none : Option (α × Nat)))
    ∧ (∀ c2 : CacheState α, ∀ k2 t,
        (cache_get loader ttl (invalidate_all c2) k2 t).2.2 = 1) := by
  have hc0 : cache_get loader ttl c k t0
      = (loader k, insertEntry c k (loader k) t0, 1) := by
    simp [cache_get, h0]
  have hl0 : lookupEntry (insertEntry c k (loader k) t0) k
      = some (loader k, t0) := lookupEntry_insert c k (loader k) t0
  have hc1 : cache_get loader ttl (insertEntry c k (loader k) t0) k t1
      = (loader k, insertEntry c k (loader k) t0, 0) := by
    simp [cache_get, hl0, h1]
  have hc2 : cache_get loader ttl (insertEntry c k (loader k) t0) k t2
      = (loader k, insertEntry (insertEntry c k (loader k) t0) k (loader k) t2, 1) := by
    simp [cache_get, hl0, Nat.not_lt.2 h2]
  refine ⟨by rw [hc0], by rw [hc0], by rw [hc0, hc1], by rw [hc0, hc1],
    by rw [hc0, hc1], by rw [hc0, hc2], ?_, fun c2 k2 => rfl, ?_⟩
  · rw [hc0, hc2]
    exact lookupEntry_insert _ _ _ _
  · intro c2 k2 t
    simp [cache_get, invalidate_all, lookupEntry]

/-- C7 witness: one read on a miss, none on a hit 5 time units later
with a TTL of 10. -/
theorem cache_get_ttl_semantics_witness :
    (cache_get (fun _ => (7 : Nat)) 10 ⟨[]⟩ "status.json" 0).2.2 = 1
    ∧ (cache_get (fun _ => (7 : Nat)) 10
        (cache_get (fun _ => (7 : Nat)) 10 ⟨[]⟩ "status.json" 0).2.1
        "status.json" 5).2.2 = 0 := by
  have H := cache_get_ttl_semantics (fun _ => (7 : Nat)) 10 ⟨[]⟩ "status.json"
    0 5 10 rfl (by decide) (by decide)
  exact ⟨H.1, H.2.2.2.1⟩
